import Mathlib

/-!
Shallow embedding of the batch-upload core of the GitHub File Uploader
extension (`src/js/background-improved.js`): the API gateway `apiRequest`,
the existence resolver `getFileContent`, the upload executor `uploadFile`,
and the batch orchestrator `batchUpload` with its session state.

The HTTP environment is modelled as a function from the global fetch
counter to the outcome of that fetch (status code, `X-RateLimit-Remaining`
header, response body text, and the `sha` field of the parsed JSON body —
the only JSON field the core ever reads).  Chrome storage, session
snapshots, progress messages, backoff sleeps and issued network requests
are threaded explicitly through the state so the theorems can talk about
them.  URL percent-encoding of paths is not modelled (no claim inspects
the encoded URL text); endpoints are carried as plain strings.
-/

namespace YesNo

/-- String containment check on the underlying character lists
(`String.includes` in JS). Structural, so the kernel can evaluate it. -/
def listIsPrefixOf : List Char → List Char → Bool
  | [], _ => true
  | _ :: _, [] => false
  | p :: ps, c :: cs => p == c && listIsPrefixOf ps cs

/-- `listContainsSub cs pat` : `pat` occurs as a contiguous run in `cs`. -/
def listContainsSub (cs pat : List Char) : Bool :=
  match cs with
  | [] => listIsPrefixOf pat []
  | _ :: cs' => listIsPrefixOf pat cs || listContainsSub cs' pat

/-- JS `s.includes(pat)`. -/
def strIncludes (s pat : String) : Bool :=
  listContainsSub s.data pat.data

/-- JS `s.toLowerCase()` (ASCII case, which is all the code compares). -/
def strLower (s : String) : String :=
  ⟨s.data.map Char.toLower⟩

/-- A thrown JS `Error`: only its `message` is ever inspected. -/
structure JsError where
  message : String
deriving Repr, DecidableEq

/-- The PUT request body built by `uploadFile` (lines 400-408):
`{message, content, branch}` plus `sha` only when the passed sha is
truthy. -/
structure PutBody where
  message : String
  content : String
  branch : String
  sha : Option String
deriving Repr, DecidableEq

/-- A network request issued by the gateway, as recorded in the trace. -/
inductive ApiCall where
  | get (endpoint : String)
  | put (endpoint : String) (body : PutBody)
deriving Repr, DecidableEq

/-- Outcome of one `fetch`: either an HTTP response (status, value of the
`X-RateLimit-Remaining` header, body text, and the `sha` field of the
parsed JSON body) or a network-level failure (the fetch rejects). -/
inductive FetchOutcome where
  | resp (status : Nat) (rateRemaining : Option String) (bodyText : String)
      (jsonSha : Option String)
  | netErr (msg : String)
deriving Repr, DecidableEq

/-- The HTTP environment: the outcome of the `n`-th fetch issued by the
process, counted across the whole batch. -/
def HttpEnv := Nat → FetchOutcome

/-- Gateway-level mutable state: the in-memory token (`authToken`
global), the token in `chrome.storage.local` (`github_token`), the global
fetch counter, and the traces of issued requests and backoff sleeps. -/
structure ApiSt where
  authToken : Option String
  storedToken : Option String
  fetchCount : Nat
  calls : List ApiCall
  sleeps : List Nat
deriving Repr, DecidableEq

/-- `loadStoredToken` (lines 73-91): copy the stored token, if any, into
the in-memory slot. -/
def loadStoredToken (st : ApiSt) : ApiSt :=
  match st.storedToken with
  | some t => { st with authToken := some t }
  | none => st

/-- One `fetch`: record the request, consume the next environment
outcome. -/
def doFetch (env : HttpEnv) (call : ApiCall) (st : ApiSt) :
    FetchOutcome × ApiSt :=
  (env st.fetchCount,
   { st with fetchCount := st.fetchCount + 1, calls := st.calls ++ [call] })

/-- `await new Promise(resolve => setTimeout(resolve, d))`: recorded in
the sleep trace. -/
def doSleep (d : Nat) (st : ApiSt) : ApiSt :=
  { st with sleeps := st.sleeps ++ [d] }

/-- `CONFIG.MAX_RETRIES` (line 15). -/
def CONFIG_MAX_RETRIES : Nat := 3

/-- `CONFIG.RETRY_DELAY` in milliseconds (line 16). -/
def CONFIG_RETRY_DELAY : Nat := 1000

/-- `response.ok`: status in 200..299. -/
def respOk (status : Nat) : Bool :=
  200 ≤ status && status ≤ 299

/-- `apiRequest` (lines 236-295), by recursion on fuel.  Both recursive
call sites pass `retries + 1` and are guarded by
`retries < CONFIG.MAX_RETRIES`, so from the entry point
(`fuel = CONFIG_MAX_RETRIES + 1 - retries`) the fuel never runs out: the
`fuel = 0` branch is unreachable from `apiRequest`
(see `apiRequestAux_fuel_irrel`).  The recursive call on line 279 sits
inside the `try` block, so an error it surfaces is caught by this level's
`catch` (line 288) and retried again; the recursive call on line 291 is
inside the `catch`, so its error propagates to the caller. -/
def apiRequestBody (env : HttpEnv) (call : ApiCall)
    (recurse : Nat → ApiSt → Except JsError (Option String) × ApiSt)
    (retries : Nat) (st : ApiSt) : Except JsError (Option String) × ApiSt :=
  -- lines 238-243: load the token from storage if not in memory
  let st := if st.authToken.isNone then loadStoredToken st else st
  if st.authToken.isNone then
    (.error ⟨"Not authenticated. Please login first."⟩, st)
  else
    -- the try block, lines 247-287
    let tryRes : Except JsError (Option String) × ApiSt :=
      match doFetch env call st with
      | (.netErr m, st1) => (.error ⟨m⟩, st1)
      | (.resp status rateRemaining bodyText jsonSha, st1) =>
        if status == 401 then
          -- lines 257-263: clear both the in-memory and stored token
          (.error ⟨"Authentication expired. Please login again."⟩,
           { st1 with authToken := none, storedToken := none })
        else if status == 404 then
          (.error ⟨"Resource not found"⟩, st1)
        else if status == 403 then
          if rateRemaining == some "0" then
            (.error ⟨"GitHub API rate limit exceeded. Please try again later."⟩, st1)
          else
            (.error ⟨"Permission denied. Check your token permissions."⟩, st1)
        else if !respOk status && retries < CONFIG_MAX_RETRIES then
          -- lines 277-280: in-try retry with linear backoff
          recurse (retries + 1) (doSleep (CONFIG_RETRY_DELAY * (retries + 1)) st1)
        else if !respOk status then
          (.error ⟨s!"API request failed: {status} - {bodyText}"⟩, st1)
        else
          (.ok jsonSha, st1)
    -- the catch block, lines 288-294
    match tryRes with
    | (.ok v, st2) => (.ok v, st2)
    | (.error e, st2) =>
      if retries < CONFIG_MAX_RETRIES && !(strIncludes e.message "Authentication") then
        recurse (retries + 1) (doSleep (CONFIG_RETRY_DELAY * (retries + 1)) st2)
      else
        (.error e, st2)

/-- Tie the recursion of `apiRequestBody` by fuel. -/
def apiRequestAux (env : HttpEnv) (call : ApiCall) :
    Nat → Nat → ApiSt → Except JsError (Option String) × ApiSt
  | 0, _, st => (.error ⟨"fuel exhausted"⟩, st)
  | fuel + 1, retries, st =>
    apiRequestBody env call (apiRequestAux env call fuel) retries st

/-- `apiRequest(endpoint, options)` with the default `retries = 0`. -/
def apiRequest (env : HttpEnv) (call : ApiCall) (st : ApiSt) :
    Except JsError (Option String) × ApiSt :=
  apiRequestAux env call (CONFIG_MAX_RETRIES + 1) 0 st

/-- The message test of `getFileContent`'s catch (lines 387-389): the
lowercased message mentions 404 / not found / resource not found. -/
def isNotFoundMsg (m : String) : Bool :=
  let msg := strLower m
  strIncludes msg "404" || strIncludes msg "not found" ||
    strIncludes msg "resource not found"

/-- The GET endpoint of the existence check (line 385); percent-encoding
of the path is not modelled. -/
def contentEndpoint (owner repo path branch : String) : String :=
  s!"/repos/{owner}/{repo}/contents/{path}?ref={branch}"

/-- `getFileContent` (lines 381-394).  Result `none` is JS `null` (the
file does not exist); `some jsonSha` is the fetched JSON, of which only
the `sha` field is retained. -/
def getFileContent (env : HttpEnv) (owner repo path branch : String)
    (st : ApiSt) : Except JsError (Option (Option String)) × ApiSt :=
  match apiRequest env (.get (contentEndpoint owner repo path branch)) st with
  | (.ok j, st') => (.ok (some j), st')
  | (.error e, st') =>
    if isNotFoundMsg e.message then (.ok none, st') else (.error e, st')

/-- JS truthiness of the `sha` argument (line 406 `if (sha)`): a
non-empty string. -/
def shaTruthy : Option String → Bool
  | some s => s != ""
  | none => false

/-- `uploadFile` (lines 399-414): build the PUT body, including `sha`
only when truthy, and issue the request through the gateway. -/
def uploadFile (env : HttpEnv) (owner repo path content message branch : String)
    (sha : Option String) (st : ApiSt) :
    Except JsError (Option String) × ApiSt :=
  let body : PutBody :=
    { message := message, content := content, branch := branch,
      sha := if shaTruthy sha then sha else none }
  apiRequest env (.put s!"/repos/{owner}/{repo}/contents/{path}" body) st

/-- A caller-supplied file record (spec §3 FileRecord); `batchUpload`
reads only `path` and `content`. -/
structure FileRecord where
  path : String
  content : String
  size : Nat := 0
  type : String := ""
deriving Repr, DecidableEq

/-- An entry of `results` (lines 455-459): `{file, status: 'success',
result}`, the result being the PUT response JSON (its `sha` field). -/
structure ResultEntry where
  file : String
  result : Option String
deriving Repr, DecidableEq

/-- An entry of `errors` (lines 477-481): `{file, status: 'error',
error}`. -/
structure ErrorEntry where
  file : String
  error : String
deriving Repr, DecidableEq

/-- The `currentUpload` session object (lines 26-38 / 424-436). -/
structure Session where
  active : Bool
  owner : String
  repo : String
  branch : String
  total : Nat
  current : Nat
  file : String
  results : List ResultEntry
  errors : List ErrorEntry
  startedAt : Option Nat
  finishedAt : Option Nat
deriving Repr, DecidableEq

/-- A progress message sent with `chrome.runtime.sendMessage`
(lines 468-474 and 490-497): `{type:'uploadProgress', file, status,
current, total, error?}`. -/
structure ProgressMsg where
  file : String
  status : String
  error : Option String
  current : Nat
  total : Nat
deriving Repr, DecidableEq

/-- Whole-orchestrator state: gateway state, the local `results` /
`errors` arrays of `batchUpload`, the `currentUpload` session, the
history of snapshots persisted to `chrome.storage.session`, and the
progress messages emitted. -/
structure BState where
  api : ApiSt
  results : List ResultEntry
  errors : List ErrorEntry
  session : Session
  snapshots : List Session
  notes : List ProgressMsg
deriving Repr, DecidableEq

/-- Persist the current session snapshot (`chrome.storage.session.set`,
wrapped in try/ignore in the source). -/
def persistSnap (b : BState) : BState :=
  { b with snapshots := b.snapshots ++ [b.session] }

/-- Process one file of the batch: the body of the `for` loop of
`batchUpload` (lines 439-499).  `delivered` says whether the `n`-th
progress message found a listener; the source ignores the result of
`sendMessage` (`.catch(() => {})`), so `delivered` is consulted
nowhere. -/
def stepFile (env : HttpEnv) (delivered : Nat → Bool) (message : String)
    (f : FileRecord) (b : BState) : BState :=
  let onError (e : JsError) (st' : ApiSt) : BState :=
    let errors := b.errors ++ [⟨f.path, e.message⟩]
    let sess := { b.session with
      current := b.results.length + errors.length
      file := f.path
      errors := errors }
    let b' := persistSnap { b with api := st', errors := errors, session := sess }
    { b' with notes := b'.notes ++
        [⟨f.path, "error", some e.message, b.results.length + errors.length,
          b.session.total⟩] }
  match getFileContent env b.session.owner b.session.repo f.path
      b.session.branch b.api with
  | (.error e, st') => onError e st'
  | (.ok existingFile, st') =>
    -- line 450: `message || `Upload ${file.path}``
    let commitMsg := if message != "" then message else s!"Upload {f.path}"
    -- line 452: `existingFile?.sha`
    match uploadFile env b.session.owner b.session.repo f.path f.content
        commitMsg b.session.branch existingFile.join st' with
    | (.error e, st'') => onError e st''
    | (.ok result, st'') =>
      let results := b.results ++ [⟨f.path, result⟩]
      let sess := { b.session with
        current := results.length + b.errors.length
        file := f.path
        results := results }
      let b' := persistSnap { b with api := st'', results := results, session := sess }
      -- note: line 472 sends `current: results.length`, not
      -- `results.length + errors.length` as in the error branch
      { b' with notes := b'.notes ++
          [⟨f.path, "success", none, results.length, b.session.total⟩] }

/-- The `for (const file of files)` loop. -/
def processFiles (env : HttpEnv) (delivered : Nat → Bool) (message : String) :
    List FileRecord → BState → BState
  | [], b => b
  | f :: fs, b => processFiles env delivered message fs (stepFile env delivered message f b)

/-- Initial orchestrator state at batch start (lines 420-437). -/
def initBState (owner repo branch : String) (total : Nat) (startedAt : Nat)
    (st : ApiSt) : BState :=
  persistSnap
    { api := st, results := [], errors := [],
      session :=
        { active := true, owner := owner, repo := repo, branch := branch,
          total := total, current := 0, file := "", results := [],
          errors := [], startedAt := some startedAt, finishedAt := none },
      snapshots := [], notes := [] }

/-- The final report `{results, errors}` (line 508). -/
structure BatchReport where
  results : List ResultEntry
  errors : List ErrorEntry
deriving Repr, DecidableEq

/-- `batchUpload` (lines 419-509).  `startClock` and `endClock` are the
values `Date.now()` returns at lines 434 and 503. -/
def batchUpload (env : HttpEnv) (delivered : Nat → Bool)
    (startClock endClock : Nat) (owner repo : String)
    (files : List FileRecord) (message branch : String) (st : ApiSt) :
    BatchReport × BState :=
  let b0 := initBState owner repo branch files.length startClock st
  let b1 := processFiles env delivered message files b0
  -- finalize, lines 501-506
  let b2 := persistSnap
    { b1 with session :=
        { b1.session with
          active := false
          finishedAt := some endClock
          results := b1.results
          errors := b1.errors } }
  (⟨b1.results, b1.errors⟩, b2)


/-! ## Concrete scenario inputs -/

/-- An authenticated gateway state with fresh counters. -/
def mkAuthedSt (tok : String) (stored : Option String) : ApiSt :=
  ⟨some tok, stored, 0, [], []⟩

/-- An always-listening observer (never consulted by the code). -/
def dTrue : Nat → Bool := fun _ => true

/-- Every fetch succeeds with an empty JSON body. -/
def env200 : HttpEnv := fun _ => .resp 200 none "" none

/-- Three consecutive 500s, then 200s (the scenario of claim C3). -/
def env3x500 : HttpEnv := fun n =>
  if n < 3 then .resp 500 none "" none else .resp 200 none "" none

/-- Every fetch returns 500. -/
def envAll500 : HttpEnv := fun _ => .resp 500 none "" none

/-- Every fetch returns 404. -/
def envAll404 : HttpEnv := fun _ => .resp 404 none "" none

/-- Every fetch returns 403 with `X-RateLimit-Remaining: 0`. -/
def envAll403Rate : HttpEnv := fun _ => .resp 403 (some "0") "" none

/-- Every fetch returns 403 without the rate-limit header. -/
def envAll403Perm : HttpEnv := fun _ => .resp 403 none "" none

/-- Every fetch returns 409. -/
def envAll409 : HttpEnv := fun _ => .resp 409 none "conflict body" none

/-- Every fetch fails at the network level. -/
def envAllNet : HttpEnv := fun _ => .netErr "Failed to fetch"

/-- Every fetch returns 401. -/
def env401 : HttpEnv := fun _ => .resp 401 none "" none

/-- The first fetch is the existence check and returns a JSON body whose
`sha` field is `s`; every later fetch succeeds. -/
def envExistsSha (s : Option String) : HttpEnv := fun n =>
  if n == 0 then .resp 200 none "" s else .resp 200 none "" none

/-- Scenario for claim C7: the first file's existence check fails with a
permission error (4 fetches after retries), the second file's existence
check 404s (4 fetches) so the file is created, and its upload succeeds. -/
def envC7 : HttpEnv := fun n =>
  if n < 4 then .resp 403 none "" none
  else if n < 8 then .resp 404 none "" none
  else .resp 200 none "" none

/-- A two-file batch. -/
def filesAB : List FileRecord := [⟨"a.txt", "A", 0, ""⟩, ⟨"b.txt", "B", 0, ""⟩]

/-- Consistency of the in-memory session with the loop's local `results`
and `errors` arrays: `batchUpload` keeps them in lock step. -/
def SessOk (b : BState) : Prop :=
  b.session.results = b.results ∧ b.session.errors = b.errors ∧
    b.session.current = b.results.length + b.errors.length

/-- The per-snapshot invariant of claim C8: a persisted snapshot is
self-consistent and carries the batch size. -/
def SnapOk (total : Nat) (s : Session) : Prop :=
  s.current = s.results.length + s.errors.length ∧ s.total = total

/-! ## Gateway lemmas -/

/-- `apiRequestBody` only invokes its recursion argument at `retries + 1`,
and only under the guard `retries < CONFIG_MAX_RETRIES`. -/
theorem apiRequestBody_congr (env : HttpEnv) (call : ApiCall)
    (r1 r2 : Nat → ApiSt → Except JsError (Option String) × ApiSt)
    (retries : Nat) (st : ApiSt)
    (h : retries < CONFIG_MAX_RETRIES → ∀ st', r1 (retries + 1) st' = r2 (retries + 1) st') :
    apiRequestBody env call r1 retries st = apiRequestBody env call r2 retries st := by
  by_cases hr : retries < CONFIG_MAX_RETRIES
  · unfold apiRequestBody
    simp only [h hr]
  · unfold apiRequestBody
    simp only [hr, decide_False, Bool.and_false, Bool.false_and, Bool.and_self,
      Bool.false_eq_true, if_false]

/-- As long as the fuel dominates the remaining retry budget the result
does not depend on it, so the `fuel = 0` branch of `apiRequestAux` is
unreachable from `apiRequest`. -/
theorem apiRequestAux_fuel_irrel (env : HttpEnv) (call : ApiCall) :
    ∀ fuel1 fuel2 retries st,
      CONFIG_MAX_RETRIES + 1 - retries ≤ fuel1 →
      CONFIG_MAX_RETRIES + 1 - retries ≤ fuel2 →
      retries ≤ CONFIG_MAX_RETRIES →
      apiRequestAux env call fuel1 retries st = apiRequestAux env call fuel2 retries st := by
  intro fuel1
  induction fuel1 with
  | zero =>
    intro fuel2 retries st h1 h2 hr
    exfalso
    simp only [CONFIG_MAX_RETRIES] at h1 hr
    omega
  | succ f1 ih =>
    intro fuel2 retries st h1 h2 hr
    cases fuel2 with
    | zero =>
      exfalso
      simp only [CONFIG_MAX_RETRIES] at h2 hr
      omega
    | succ f2 =>
      show apiRequestBody env call (apiRequestAux env call f1) retries st =
        apiRequestBody env call (apiRequestAux env call f2) retries st
      apply apiRequestBody_congr
      intro hlt st'
      apply ih
      · simp only [CONFIG_MAX_RETRIES] at hlt h1 ⊢; omega
      · simp only [CONFIG_MAX_RETRIES] at hlt h2 ⊢; omega
      · simp only [CONFIG_MAX_RETRIES] at hlt ⊢; omega

/-- With no token in memory or storage, the gateway fails
`Unauthenticated` at once: the state — in particular the fetch counter
and request trace — is untouched, so no network request is issued and no
retry happens. -/
theorem apiRequest_noAuth (env : HttpEnv) (call : ApiCall) (st : ApiSt)
    (h1 : st.authToken = none) (h2 : st.storedToken = none) :
    apiRequest env call st = (.error ⟨"Not authenticated. Please login first."⟩, st) := by
  simp [apiRequest, apiRequestAux, apiRequestBody, loadStoredToken, h1, h2]

/-- A 401 response makes the gateway clear both the in-memory and the
stored token and fail after exactly one fetch, with no retry and no
backoff sleep: the message contains "Authentication", which the catch
clause of lines 289-292 refuses to retry. -/
theorem apiRequest_401 (env : HttpEnv) (call : ApiCall) (st : ApiSt) (tok : String)
    (rl : Option String) (body : String) (sh : Option String)
    (htok : st.authToken = some tok)
    (henv : env st.fetchCount = .resp 401 rl body sh) :
    apiRequest env call st =
      (.error ⟨"Authentication expired. Please login again."⟩,
       ⟨none, none, st.fetchCount + 1, st.calls ++ [call], st.sleeps⟩) := by
  have hs : strIncludes "Authentication expired. Please login again." "Authentication" = true := by
    decide
  simp [apiRequest, apiRequestAux, apiRequestBody, doFetch, henv, htok, hs]

/-- Every network request issued during one `apiRequest` chain is the
same call, so the trace grows by a tail of copies of it; when a token is
in memory at entry, at least one request is issued. -/
theorem apiRequestAux_calls (env : HttpEnv) (call : ApiCall) :
    ∀ fuel retries st, ∃ tail,
      (apiRequestAux env call fuel retries st).2.calls = st.calls ++ tail ∧
      (∀ c ∈ tail, c = call) ∧
      (st.authToken.isSome → 0 < fuel → tail ≠ []) := by
  intro fuel
  induction fuel with
  | zero =>
    intro retries st
    exact ⟨[], by simp [apiRequestAux], by simp, by simp⟩
  | succ f ih =>
    intro retries st
    show ∃ tail, (apiRequestBody env call (apiRequestAux env call f) retries st).2.calls = _ ∧ _
    simp only [apiRequestBody]
    set stL := if st.authToken.isNone then loadStoredToken st else st with hstL
    have hcalls : stL.calls = st.calls := by
      rw [hstL]
      split
      · unfold loadStoredToken
        split <;> rfl
      · rfl
    by_cases hN : stL.authToken.isNone
    · simp only [hN, if_true]
      refine ⟨[], by simp [hcalls], by simp, ?_⟩
      intro hsome _
      exfalso
      cases hA : st.authToken with
      | none => rw [hA] at hsome; simp at hsome
      | some tok =>
        rw [hstL] at hN
        simp [hA] at hN
    · rw [Bool.not_eq_true] at hN
      simp only [hN, Bool.false_eq_true, if_false]
      cases henv : env stL.fetchCount with
      | netErr m =>
        simp only [doFetch, henv]
        split
        · obtain ⟨t1, ht1, hall1, _⟩ := ih (retries + 1) _
          refine ⟨call :: t1, ?_, ?_, by simp⟩
          · rw [ht1]
            simp [doSleep, hcalls]
          · intro c hc
            rcases List.mem_cons.mp hc with h | h
            · exact h
            · exact hall1 c h
        · exact ⟨[call], by simp [hcalls], by simp, by simp⟩
      | resp status rateRemaining bodyText jsonSha =>
        simp only [doFetch, henv]
        by_cases h1 : (status == 401) = true
        · rw [if_pos h1]
          dsimp only
          split
          · obtain ⟨t1, ht1, hall1, _⟩ := ih (retries + 1) _
            refine ⟨call :: t1, ?_, ?_, by simp⟩
            · rw [ht1]
              simp [doSleep, hcalls]
            · intro c hc
              rcases List.mem_cons.mp hc with h | h
              · exact h
              · exact hall1 c h
          · exact ⟨[call], by simp [hcalls], by simp, by simp⟩
        · rw [if_neg h1]
          by_cases h2 : (status == 404) = true
          · rw [if_pos h2]
            dsimp only
            split
            · obtain ⟨t1, ht1, hall1, _⟩ := ih (retries + 1) _
              refine ⟨call :: t1, ?_, ?_, by simp⟩
              · rw [ht1]
                simp [doSleep, hcalls]
              · intro c hc
                rcases List.mem_cons.mp hc with h | h
                · exact h
                · exact hall1 c h
            · exact ⟨[call], by simp [hcalls], by simp, by simp⟩
          · rw [if_neg h2]
            by_cases h3 : (status == 403) = true
            · rw [if_pos h3]
              by_cases h4 : (rateRemaining == some "0") = true
              · rw [if_pos h4]
                dsimp only
                split
                · obtain ⟨t1, ht1, hall1, _⟩ := ih (retries + 1) _
                  refine ⟨call :: t1, ?_, ?_, by simp⟩
                  · rw [ht1]
                    simp [doSleep, hcalls]
                  · intro c hc
                    rcases List.mem_cons.mp hc with h | h
                    · exact h
                    · exact hall1 c h
                · exact ⟨[call], by simp [hcalls], by simp, by simp⟩
              · rw [if_neg h4]
                dsimp only
                split
                · obtain ⟨t1, ht1, hall1, _⟩ := ih (retries + 1) _
                  refine ⟨call :: t1, ?_, ?_, by simp⟩
                  · rw [ht1]
                    simp [doSleep, hcalls]
                  · intro c hc
                    rcases List.mem_cons.mp hc with h | h
                    · exact h
                    · exact hall1 c h
                · exact ⟨[call], by simp [hcalls], by simp, by simp⟩
            · rw [if_neg h3]
              by_cases h5 : (!respOk status && decide (retries < CONFIG_MAX_RETRIES)) = true
              · rw [if_pos h5]
                rcases hres : apiRequestAux env call f (retries + 1)
                    (doSleep (CONFIG_RETRY_DELAY * (retries + 1))
                      { authToken := stL.authToken, storedToken := stL.storedToken,
                        fetchCount := stL.fetchCount + 1, calls := stL.calls ++ [call],
                        sleeps := stL.sleeps }) with ⟨res1, st2⟩
                obtain ⟨t1, ht1, hall1, _⟩ := ih (retries + 1)
                    (doSleep (CONFIG_RETRY_DELAY * (retries + 1))
                      { authToken := stL.authToken, storedToken := stL.storedToken,
                        fetchCount := stL.fetchCount + 1, calls := stL.calls ++ [call],
                        sleeps := stL.sleeps })
                rw [hres] at ht1
                dsimp only at ht1
                cases res1 with
                | ok v =>
                  dsimp only
                  refine ⟨call :: t1, ?_, ?_, by simp⟩
                  · rw [ht1]
                    simp [doSleep, hcalls]
                  · intro c hc
                    rcases List.mem_cons.mp hc with h | h
                    · exact h
                    · exact hall1 c h
                | error e =>
                  dsimp only
                  split
                  · obtain ⟨t2, ht2, hall2, _⟩ := ih (retries + 1)
                      (doSleep (CONFIG_RETRY_DELAY * (retries + 1)) st2)
                    refine ⟨call :: (t1 ++ t2), ?_, ?_, by simp⟩
                    · rw [ht2]
                      simp only [doSleep] at ht1 ⊢
                      rw [ht1]
                      simp [hcalls]
                    · intro c hc
                      rcases List.mem_cons.mp hc with h | h
                      · exact h
                      · rcases List.mem_append.mp h with h' | h'
                        · exact hall1 c h'
                        · exact hall2 c h'
                  · refine ⟨call :: t1, ?_, ?_, by simp⟩
                    · dsimp only
                      rw [ht1]
                      simp [doSleep, hcalls]
                    · intro c hc
                      rcases List.mem_cons.mp hc with h | h
                      · exact h
                      · exact hall1 c h
              · rw [if_neg h5]
                by_cases h6 : (!respOk status) = true
                · rw [if_pos h6]
                  dsimp only
                  split
                  · obtain ⟨t1, ht1, hall1, _⟩ := ih (retries + 1) _
                    refine ⟨call :: t1, ?_, ?_, by simp⟩
                    · rw [ht1]
                      simp [doSleep, hcalls]
                    · intro c hc
                      rcases List.mem_cons.mp hc with h | h
                      · exact h
                      · exact hall1 c h
                  · exact ⟨[call], by simp [hcalls], by simp, by simp⟩
                · rw [if_neg h6]
                  exact ⟨[call], by simp [hcalls], by simp, by simp⟩

/-! ## Batch orchestrator lemmas -/

/-- The error branch of the loop body (lines 476-498), entered when the
existence check fails: the file is recorded in `errors`, its upload is
skipped (the gateway state is exactly the one the existence check left),
and an error progress message is emitted. -/
theorem stepFile_err (env : HttpEnv) (d : Nat → Bool) (m : String)
    (f : FileRecord) (b : BState) (e : JsError) (st' : ApiSt)
    (hg : getFileContent env b.session.owner b.session.repo f.path
        b.session.branch b.api = (.error e, st')) :
    stepFile env d m f b =
      { api := st'
        results := b.results
        errors := b.errors ++ [ErrorEntry.mk f.path e.message]
        session := { b.session with
          current := b.results.length + (b.errors ++ [ErrorEntry.mk f.path e.message]).length
          file := f.path
          errors := b.errors ++ [ErrorEntry.mk f.path e.message] }
        snapshots := b.snapshots ++ [{ b.session with
          current := b.results.length + (b.errors ++ [ErrorEntry.mk f.path e.message]).length
          file := f.path
          errors := b.errors ++ [ErrorEntry.mk f.path e.message] }]
        notes := b.notes ++ [ProgressMsg.mk f.path "error" (some e.message)
          (b.results.length + (b.errors ++ [ErrorEntry.mk f.path e.message]).length)
          b.session.total] } := by
  simp only [stepFile, hg, persistSnap]

/-- The error branch entered when the existence check succeeded but the
upload itself failed: identical bookkeeping, with the gateway state the
upload left. -/
theorem stepFile_upload_err (env : HttpEnv) (d : Nat → Bool) (m : String)
    (f : FileRecord) (b : BState) (existing : Option (Option String))
    (st' : ApiSt) (e : JsError) (st'' : ApiSt)
    (hg : getFileContent env b.session.owner b.session.repo f.path
        b.session.branch b.api = (.ok existing, st'))
    (hu : uploadFile env b.session.owner b.session.repo f.path f.content
        (if m != "" then m else s!"Upload {f.path}") b.session.branch
        existing.join st' = (.error e, st'')) :
    stepFile env d m f b =
      { api := st''
        results := b.results
        errors := b.errors ++ [ErrorEntry.mk f.path e.message]
        session := { b.session with
          current := b.results.length + (b.errors ++ [ErrorEntry.mk f.path e.message]).length
          file := f.path
          errors := b.errors ++ [ErrorEntry.mk f.path e.message] }
        snapshots := b.snapshots ++ [{ b.session with
          current := b.results.length + (b.errors ++ [ErrorEntry.mk f.path e.message]).length
          file := f.path
          errors := b.errors ++ [ErrorEntry.mk f.path e.message] }]
        notes := b.notes ++ [ProgressMsg.mk f.path "error" (some e.message)
          (b.results.length + (b.errors ++ [ErrorEntry.mk f.path e.message]).length)
          b.session.total] } := by
  simp only [stepFile, hg, hu, persistSnap]

/-- The success branch of the loop body (lines 444-474). -/
theorem stepFile_ok (env : HttpEnv) (d : Nat → Bool) (m : String)
    (f : FileRecord) (b : BState) (existing : Option (Option String))
    (st' : ApiSt) (r : Option String) (st'' : ApiSt)
    (hg : getFileContent env b.session.owner b.session.repo f.path
        b.session.branch b.api = (.ok existing, st'))
    (hu : uploadFile env b.session.owner b.session.repo f.path f.content
        (if m != "" then m else s!"Upload {f.path}") b.session.branch
        existing.join st' = (.ok r, st'')) :
    stepFile env d m f b =
      { api := st''
        results := b.results ++ [ResultEntry.mk f.path r]
        errors := b.errors
        session := { b.session with
          current := (b.results ++ [ResultEntry.mk f.path r]).length + b.errors.length
          file := f.path
          results := b.results ++ [ResultEntry.mk f.path r] }
        snapshots := b.snapshots ++ [{ b.session with
          current := (b.results ++ [ResultEntry.mk f.path r]).length + b.errors.length
          file := f.path
          results := b.results ++ [ResultEntry.mk f.path r] }]
        notes := b.notes ++ [ProgressMsg.mk f.path "success" none
          (b.results ++ [ResultEntry.mk f.path r]).length b.session.total] } := by
  simp only [stepFile, hg, hu, persistSnap]



/-- Each file adds exactly one entry to `results ++ errors`. -/
theorem stepFile_counts (env : HttpEnv) (d : Nat → Bool) (m : String)
    (f : FileRecord) (b : BState) :
    (stepFile env d m f b).results.length + (stepFile env d m f b).errors.length =
      b.results.length + b.errors.length + 1 := by
  rcases hg : getFileContent env b.session.owner b.session.repo f.path
      b.session.branch b.api with ⟨res, st'⟩
  cases res with
  | error e => rw [stepFile_err env d m f b e st' hg]; simp; omega
  | ok existing =>
    rcases hu : uploadFile env b.session.owner b.session.repo f.path f.content
        (if m != "" then m else s!"Upload {f.path}") b.session.branch
        existing.join st' with ⟨ures, st''⟩
    cases ures with
    | error e => rw [stepFile_upload_err env d m f b existing st' e st'' hg hu]; simp; omega
    | ok r => rw [stepFile_ok env d m f b existing st' r st'' hg hu]; simp; omega

/-- `results` only ever grows. -/
theorem stepFile_results_mono (env : HttpEnv) (d : Nat → Bool) (m : String)
    (f : FileRecord) (b : BState) :
    ∃ t, (stepFile env d m f b).results = b.results ++ t := by
  rcases hg : getFileContent env b.session.owner b.session.repo f.path
      b.session.branch b.api with ⟨res, st'⟩
  cases res with
  | error e => exact ⟨[], by rw [stepFile_err env d m f b e st' hg]; simp⟩
  | ok existing =>
    rcases hu : uploadFile env b.session.owner b.session.repo f.path f.content
        (if m != "" then m else s!"Upload {f.path}") b.session.branch
        existing.join st' with ⟨ures, st''⟩
    cases ures with
    | error e =>
      exact ⟨[], by rw [stepFile_upload_err env d m f b existing st' e st'' hg hu]; simp⟩
    | ok r =>
      exact ⟨[ResultEntry.mk f.path r],
        by rw [stepFile_ok env d m f b existing st' r st'' hg hu]⟩

/-- Exactly one progress message is emitted per file, bearing the file's
path and the batch total; an error message carries the attempted count,
a success message carries only the success count. -/
theorem stepFile_note (env : HttpEnv) (d : Nat → Bool) (m : String)
    (f : FileRecord) (b : BState) :
    ∃ n : ProgressMsg,
      (stepFile env d m f b).notes = b.notes ++ [n] ∧
      n.file = f.path ∧ n.total = b.session.total ∧
      ((n.status = "success" ∧ n.error = none ∧
          n.current = (stepFile env d m f b).results.length) ∨
        (n.status = "error" ∧ n.error.isSome ∧
          n.current = (stepFile env d m f b).results.length +
            (stepFile env d m f b).errors.length)) := by
  rcases hg : getFileContent env b.session.owner b.session.repo f.path
      b.session.branch b.api with ⟨res, st'⟩
  cases res with
  | error e =>
    rw [stepFile_err env d m f b e st' hg]
    exact ⟨_, rfl, rfl, rfl, Or.inr ⟨rfl, rfl, by simp⟩⟩
  | ok existing =>
    rcases hu : uploadFile env b.session.owner b.session.repo f.path f.content
        (if m != "" then m else s!"Upload {f.path}") b.session.branch
        existing.join st' with ⟨ures, st''⟩
    cases ures with
    | error e =>
      rw [stepFile_upload_err env d m f b existing st' e st'' hg hu]
      exact ⟨_, rfl, rfl, rfl, Or.inr ⟨rfl, rfl, by simp⟩⟩
    | ok r =>
      rw [stepFile_ok env d m f b existing st' r st'' hg hu]
      exact ⟨_, rfl, rfl, rfl, Or.inl ⟨rfl, rfl, by simp⟩⟩

/-- The loop body never touches the fixed session fields. -/
theorem stepFile_session_fixed (env : HttpEnv) (d : Nat → Bool) (m : String)
    (f : FileRecord) (b : BState) :
    (stepFile env d m f b).session.owner = b.session.owner ∧
    (stepFile env d m f b).session.repo = b.session.repo ∧
    (stepFile env d m f b).session.branch = b.session.branch ∧
    (stepFile env d m f b).session.total = b.session.total ∧
    (stepFile env d m f b).session.startedAt = b.session.startedAt ∧
    (stepFile env d m f b).session.finishedAt = b.session.finishedAt ∧
    (stepFile env d m f b).session.active = b.session.active := by
  rcases hg : getFileContent env b.session.owner b.session.repo f.path
      b.session.branch b.api with ⟨res, st'⟩
  cases res with
  | error e => rw [stepFile_err env d m f b e st' hg]; exact ⟨rfl, rfl, rfl, rfl, rfl, rfl, rfl⟩
  | ok existing =>
    rcases hu : uploadFile env b.session.owner b.session.repo f.path f.content
        (if m != "" then m else s!"Upload {f.path}") b.session.branch
        existing.join st' with ⟨ures, st''⟩
    cases ures with
    | error e =>
      rw [stepFile_upload_err env d m f b existing st' e st'' hg hu]
      exact ⟨rfl, rfl, rfl, rfl, rfl, rfl, rfl⟩
    | ok r =>
      rw [stepFile_ok env d m f b existing st' r st'' hg hu]
      exact ⟨rfl, rfl, rfl, rfl, rfl, rfl, rfl⟩

/-- The loop body keeps the session in lock step with the local arrays. -/
theorem stepFile_sessOk (env : HttpEnv) (d : Nat → Bool) (m : String)
    (f : FileRecord) (b : BState) (h : SessOk b) :
    SessOk (stepFile env d m f b) := by
  obtain ⟨h1, h2, h3⟩ := h
  rcases hg : getFileContent env b.session.owner b.session.repo f.path
      b.session.branch b.api with ⟨res, st'⟩
  cases res with
  | error e =>
    rw [stepFile_err env d m f b e st' hg]
    exact ⟨h1, by simp, by simp⟩
  | ok existing =>
    rcases hu : uploadFile env b.session.owner b.session.repo f.path f.content
        (if m != "" then m else s!"Upload {f.path}") b.session.branch
        existing.join st' with ⟨ures, st''⟩
    cases ures with
    | error e =>
      rw [stepFile_upload_err env d m f b existing st' e st'' hg hu]
      exact ⟨h1, by simp, by simp⟩
    | ok r =>
      rw [stepFile_ok env d m f b existing st' r st'' hg hu]
      exact ⟨by simp, h2, by simp⟩

/-- The loop body appends exactly the new session as a snapshot. -/
theorem stepFile_snapshots (env : HttpEnv) (d : Nat → Bool) (m : String)
    (f : FileRecord) (b : BState) :
    (stepFile env d m f b).snapshots =
      b.snapshots ++ [(stepFile env d m f b).session] := by
  rcases hg : getFileContent env b.session.owner b.session.repo f.path
      b.session.branch b.api with ⟨res, st'⟩
  cases res with
  | error e => rw [stepFile_err env d m f b e st' hg]
  | ok existing =>
    rcases hu : uploadFile env b.session.owner b.session.repo f.path f.content
        (if m != "" then m else s!"Upload {f.path}") b.session.branch
        existing.join st' with ⟨ures, st''⟩
    cases ures with
    | error e => rw [stepFile_upload_err env d m f b existing st' e st'' hg hu]
    | ok r => rw [stepFile_ok env d m f b existing st' r st'' hg hu]



/-- Unfolding the loop one file at a time: the orchestrator never aborts
— after any file, it continues with exactly the remaining files. -/
theorem processFiles_cons (env : HttpEnv) (d : Nat → Bool) (m : String)
    (f : FileRecord) (fs : List FileRecord) (b : BState) :
    processFiles env d m (f :: fs) b =
      processFiles env d m fs (stepFile env d m f b) := rfl

/-- Splitting the loop over a concatenation of file lists. -/
theorem processFiles_append (env : HttpEnv) (d : Nat → Bool) (m : String) :
    ∀ (xs ys : List FileRecord) (b : BState),
      processFiles env d m (xs ++ ys) b =
        processFiles env d m ys (processFiles env d m xs b) := by
  intro xs
  induction xs with
  | nil => intro ys b; rfl
  | cons f xs ih => intro ys b; exact ih ys (stepFile env d m f b)

/-- The loop adds one entry to `results ++ errors` per file. -/
theorem processFiles_counts (env : HttpEnv) (d : Nat → Bool) (m : String) :
    ∀ (fs : List FileRecord) (b : BState),
      (processFiles env d m fs b).results.length +
        (processFiles env d m fs b).errors.length =
        b.results.length + b.errors.length + fs.length := by
  intro fs
  induction fs with
  | nil => intro b; rfl
  | cons f fs ih =>
    intro b
    rw [processFiles_cons]
    rw [ih (stepFile env d m f b)]
    rw [stepFile_counts env d m f b]
    simp
    omega

/-- The loop only appends to `results`: earlier successes survive later
failures. -/
theorem processFiles_results_mono (env : HttpEnv) (d : Nat → Bool) (m : String) :
    ∀ (fs : List FileRecord) (b : BState),
      ∃ t, (processFiles env d m fs b).results = b.results ++ t := by
  intro fs
  induction fs with
  | nil => intro b; exact ⟨[], by simp [processFiles]⟩
  | cons f fs ih =>
    intro b
    rw [processFiles_cons]
    obtain ⟨t1, ht1⟩ := stepFile_results_mono env d m f b
    obtain ⟨t2, ht2⟩ := ih (stepFile env d m f b)
    exact ⟨t1 ++ t2, by rw [ht2, ht1]; simp⟩

/-- One progress message per file, in the caller-supplied order. -/
theorem processFiles_notes (env : HttpEnv) (d : Nat → Bool) (m : String) :
    ∀ (fs : List FileRecord) (b : BState),
      ∃ ns, (processFiles env d m fs b).notes = b.notes ++ ns ∧
        ns.map (fun n => n.file) = fs.map (fun f => f.path) := by
  intro fs
  induction fs with
  | nil => intro b; exact ⟨[], by simp [processFiles], rfl⟩
  | cons f fs ih =>
    intro b
    rw [processFiles_cons]
    obtain ⟨n, hn, hfile, htot, _⟩ := stepFile_note env d m f b
    obtain ⟨ns, hns, hmap⟩ := ih (stepFile env d m f b)
    refine ⟨n :: ns, ?_, ?_⟩
    · rw [hns, hn]; simp
    · simp [hmap, hfile]

/-- The loop never touches the fixed session fields. -/
theorem processFiles_session_fixed (env : HttpEnv) (d : Nat → Bool) (m : String) :
    ∀ (fs : List FileRecord) (b : BState),
      (processFiles env d m fs b).session.owner = b.session.owner ∧
      (processFiles env d m fs b).session.repo = b.session.repo ∧
      (processFiles env d m fs b).session.branch = b.session.branch ∧
      (processFiles env d m fs b).session.total = b.session.total ∧
      (processFiles env d m fs b).session.startedAt = b.session.startedAt ∧
      (processFiles env d m fs b).session.finishedAt = b.session.finishedAt ∧
      (processFiles env d m fs b).session.active = b.session.active := by
  intro fs
  induction fs with
  | nil => intro b; exact ⟨rfl, rfl, rfl, rfl, rfl, rfl, rfl⟩
  | cons f fs ih =>
    intro b
    rw [processFiles_cons]
    obtain ⟨i1, i2, i3, i4, i5, i6, i7⟩ := ih (stepFile env d m f b)
    obtain ⟨s1, s2, s3, s4, s5, s6, s7⟩ := stepFile_session_fixed env d m f b
    exact ⟨i1.trans s1, i2.trans s2, i3.trans s3, i4.trans s4,
      i5.trans s5, i6.trans s6, i7.trans s7⟩

/-- Session/snapshot invariants are maintained across the whole loop. -/
theorem processFiles_invariants (env : HttpEnv) (d : Nat → Bool) (m : String) :
    ∀ (fs : List FileRecord) (b : BState),
      SessOk b → (∀ s ∈ b.snapshots, SnapOk b.session.total s) →
      SessOk (processFiles env d m fs b) ∧
        ∀ s ∈ (processFiles env d m fs b).snapshots, SnapOk b.session.total s := by
  intro fs
  induction fs with
  | nil => intro b h1 h2; exact ⟨h1, h2⟩
  | cons f fs ih =>
    intro b h1 h2
    rw [processFiles_cons]
    have hok : SessOk (stepFile env d m f b) := stepFile_sessOk env d m f b h1
    have htot : (stepFile env d m f b).session.total = b.session.total :=
      (stepFile_session_fixed env d m f b).2.2.2.1
    have hsnap : ∀ s ∈ (stepFile env d m f b).snapshots, SnapOk b.session.total s := by
      rw [stepFile_snapshots env d m f b]
      intro s hs
      rcases List.mem_append.mp hs with h | h
      · exact h2 s h
      · rcases List.mem_singleton.mp h with rfl
        obtain ⟨k1, k2, k3⟩ := hok
        exact ⟨by rw [k3, k1, k2], htot⟩
    obtain ⟨j1, j2⟩ := ih (stepFile env d m f b) hok (by rw [htot]; exact hsnap)
    exact ⟨j1, by rw [htot] at j2; exact j2⟩

/-- Once the credential is gone from memory and storage, the loop
records an `Unauthenticated` error for every remaining file without
touching the gateway state: no network request is issued. -/
theorem processFiles_noAuth (env : HttpEnv) (d : Nat → Bool) (m : String) :
    ∀ (fs : List FileRecord) (b : BState),
      b.api.authToken = none → b.api.storedToken = none →
      (processFiles env d m fs b).api = b.api ∧
      (processFiles env d m fs b).results = b.results ∧
      (processFiles env d m fs b).errors = b.errors ++
        fs.map (fun f => ErrorEntry.mk f.path "Not authenticated. Please login first.") := by
  intro fs
  induction fs with
  | nil => intro b h1 h2; exact ⟨rfl, rfl, by simp [processFiles]⟩
  | cons f fs ih =>
    intro b h1 h2
    have hnf : isNotFoundMsg "Not authenticated. Please login first." = false := by decide
    have hgc : getFileContent env b.session.owner b.session.repo f.path
        b.session.branch b.api =
        (.error ⟨"Not authenticated. Please login first."⟩, b.api) := by
      have hreq := apiRequest_noAuth env
        (.get (contentEndpoint b.session.owner b.session.repo f.path b.session.branch))
        b.api h1 h2
      simp [getFileContent, hreq, hnf]
    have hstep := stepFile_err env d m f b ⟨"Not authenticated. Please login first."⟩ b.api hgc
    obtain ⟨i1, i2, i3⟩ := ih (stepFile env d m f b)
      (by rw [hstep]; exact h1) (by rw [hstep]; exact h2)
    rw [processFiles_cons, hstep]
    rw [hstep] at i1 i2 i3
    refine ⟨i1, i2, ?_⟩
    rw [i3]
    simp


/-- The loop body never consults the observer flag: `sendMessage`'s
result is discarded (`.catch(() => {})`). -/
theorem stepFile_delivery_irrel (env : HttpEnv) (d d' : Nat → Bool)
    (m : String) (f : FileRecord) (b : BState) :
    stepFile env d m f b = stepFile env d' m f b := rfl

/-- Hence the whole loop is independent of the observer. -/
theorem processFiles_delivery_irrel (env : HttpEnv) (d d' : Nat → Bool)
    (m : String) :
    ∀ (fs : List FileRecord) (b : BState),
      processFiles env d m fs b = processFiles env d' m fs b := by
  intro fs
  induction fs with
  | nil => intro b; rfl
  | cons f fs ih =>
    intro b
    rw [processFiles_cons, processFiles_cons, ← stepFile_delivery_irrel env d d' m f b]
    exact ih (stepFile env d m f b)

/-- And so is the whole batch. -/
theorem batchUpload_delivery_irrel (env : HttpEnv) (d d' : Nat → Bool)
    (c0 c1 : Nat) (owner repo : String) (files : List FileRecord)
    (m branch : String) (st : ApiSt) :
    batchUpload env d c0 c1 owner repo files m branch st =
      batchUpload env d' c0 c1 owner repo files m branch st := by
  simp only [batchUpload]
  rw [processFiles_delivery_irrel env d d' m files]

/-! ## Claims -/

/-- C1: for every batch run, `len(results) + len(errors) = len(files)`;
files are processed strictly sequentially in the caller-supplied order
(the per-file progress messages list the paths in exactly the input
order); and a per-file failure never aborts the remaining files — the
results accumulated over any prefix of the file list are a prefix of the
final results, so files already uploaded stay uploaded (no partial-batch
rollback). -/
theorem claim_C1 (env : HttpEnv) (d : Nat → Bool) (c0 c1 : Nat)
    (owner repo : String) (files : List FileRecord) (m branch : String)
    (st : ApiSt) :
    (batchUpload env d c0 c1 owner repo files m branch st).1.results.length +
      (batchUpload env d c0 c1 owner repo files m branch st).1.errors.length =
      files.length ∧
    (batchUpload env d c0 c1 owner repo files m branch st).2.notes.map
      (fun n => n.file) = files.map (fun f => f.path) ∧
    (∀ xs ys, files = xs ++ ys → ∃ tail,
      (batchUpload env d c0 c1 owner repo files m branch st).1.results =
        (processFiles env d m xs
          (initBState owner repo branch files.length c0 st)).results ++ tail) := by
  refine ⟨?_, ?_, ?_⟩
  · have h := processFiles_counts env d m files
      (initBState owner repo branch files.length c0 st)
    simp only [batchUpload]
    simpa [initBState, persistSnap] using h
  · obtain ⟨ns, hns, hmap⟩ := processFiles_notes env d m files
      (initBState owner repo branch files.length c0 st)
    simp only [batchUpload, persistSnap]
    rw [hns]
    simpa [initBState, persistSnap] using hmap
  · intro xs ys hsplit
    subst hsplit
    obtain ⟨t, ht⟩ := processFiles_results_mono env d m ys
      (processFiles env d m xs (initBState owner repo branch (xs ++ ys).length c0 st))
    refine ⟨t, ?_⟩
    simp only [batchUpload, persistSnap]
    rw [processFiles_append]
    exact ht

/-- Witness for C1 at a concrete batch. -/
theorem claim_C1_witness :
    (filesAB = [⟨"a.txt", "A", 0, ""⟩] ++ [⟨"b.txt", "B", 0, ""⟩]) ∧
    (∃ tail,
      (batchUpload env200 dTrue 0 1 "o" "r" filesAB "" "main"
        (mkAuthedSt "tok" none)).1.results =
      (processFiles env200 dTrue "" [⟨"a.txt", "A", 0, ""⟩]
        (initBState "o" "r" "main" filesAB.length 0
          (mkAuthedSt "tok" none))).results ++ tail) :=
  ⟨rfl, (claim_C1 env200 dTrue 0 1 "o" "r" filesAB "" "main"
    (mkAuthedSt "tok" none)).2.2 [⟨"a.txt", "A", 0, ""⟩] [⟨"b.txt", "B", 0, ""⟩] rfl⟩


/-- C2 as stated is falsified by an existence check that resolves to the
hash `""`: JS `if (sha)` treats the empty string as falsy (line 406), so
the PUT body carries no `sha` even though the existence check resolved to
a hash.  Concretely, with the existence check returning `sha = ""`, the
issued PUT body has `sha = none`. -/
theorem claim_C2_counterexample :
    getFileContent (envExistsSha (some "")) "o" "r" "a.txt" "main"
      (mkAuthedSt "tok" none) =
      (.ok (some (some "")),
       ⟨some "tok", none, 1, [.get (contentEndpoint "o" "r" "a.txt" "main")], []⟩) ∧
    (batchUpload (envExistsSha (some "")) dTrue 0 1 "o" "r"
      [⟨"a.txt", "A", 0, ""⟩] "m" "main" (mkAuthedSt "tok" none)).2.api.calls =
      [.get (contentEndpoint "o" "r" "a.txt" "main"),
       .put "/repos/o/r/contents/a.txt" ⟨"m", "A", "main", none⟩] :=
  ⟨rfl, rfl⟩

/-- C2 (amended: "hash" must be non-empty): when the existence check
resolves, the loop body issues the upload PUT — every network request it
makes from there is that PUT — and the PUT body carries no `sha` when the
check resolved `absent` (`null`, or a JSON body without `sha`), and
carries exactly `sha = s` when it resolved to a non-empty hash `s`. -/
theorem claim_C2 (env : HttpEnv) (d : Nat → Bool) (m : String)
    (f : FileRecord) (b : BState) (existing : Option (Option String))
    (st' : ApiSt) (tok : String)
    (hg : getFileContent env b.session.owner b.session.repo f.path
        b.session.branch b.api = (.ok existing, st'))
    (ht : st'.authToken = some tok) :
    ∃ (tail : List ApiCall) (body : PutBody),
      (stepFile env d m f b).api.calls = st'.calls ++
        ApiCall.put s!"/repos/{b.session.owner}/{b.session.repo}/contents/{f.path}" body :: tail ∧
      (∀ c ∈ tail,
        c = ApiCall.put s!"/repos/{b.session.owner}/{b.session.repo}/contents/{f.path}" body) ∧
      body.message = (if m != "" then m else s!"Upload {f.path}") ∧
      body.content = f.content ∧ body.branch = b.session.branch ∧
      body.sha = (if shaTruthy existing.join then existing.join else none) ∧
      (existing = none → body.sha = none) ∧
      (∀ s, existing = some (some s) → s ≠ "" → body.sha = some s) := by
  rcases hu : uploadFile env b.session.owner b.session.repo f.path f.content
      (if m != "" then m else s!"Upload {f.path}") b.session.branch
      existing.join st' with ⟨ures, st''⟩
  have happ : (stepFile env d m f b).api = st'' := by
    cases ures with
    | error e => rw [stepFile_upload_err env d m f b existing st' e st'' hg hu]
    | ok r => rw [stepFile_ok env d m f b existing st' r st'' hg hu]
  obtain ⟨tl, hcalls, hall, hne⟩ := apiRequestAux_calls env
    (ApiCall.put s!"/repos/{b.session.owner}/{b.session.repo}/contents/{f.path}"
      ⟨if m != "" then m else s!"Upload {f.path}", f.content, b.session.branch,
        if shaTruthy existing.join then existing.join else none⟩)
    (CONFIG_MAX_RETRIES + 1) 0 st'
  have h2 : (uploadFile env b.session.owner b.session.repo f.path f.content
      (if m != "" then m else s!"Upload {f.path}") b.session.branch
      existing.join st').2 = st'' := by rw [hu]
  have hcalls' : st''.calls = st'.calls ++ tl := by
    rw [← h2]
    exact hcalls
  have htl : tl ≠ [] := by
    apply hne
    · rw [ht]; rfl
    · simp [CONFIG_MAX_RETRIES]
  rcases tl with _ | ⟨c, rest⟩
  · exact absurd rfl htl
  · have hc : c = ApiCall.put
        s!"/repos/{b.session.owner}/{b.session.repo}/contents/{f.path}"
        ⟨if m != "" then m else s!"Upload {f.path}", f.content, b.session.branch,
          if shaTruthy existing.join then existing.join else none⟩ :=
      hall c (List.mem_cons_self c rest)
    refine ⟨rest,
      ⟨if m != "" then m else s!"Upload {f.path}", f.content, b.session.branch,
        if shaTruthy existing.join then existing.join else none⟩,
      ?_, ?_, rfl, rfl, rfl, rfl, ?_, ?_⟩
    · rw [happ, hcalls', hc]
    · intro x hx
      exact hall x (List.mem_cons_of_mem c hx)
    · intro hnone
      subst hnone
      rfl
    · intro s hs hne'
      subst hs
      simp only [Option.join]
      simp [shaTruthy, hne']

/-- Witness for C2: existence check resolving to hash `"abc123"`. -/
theorem claim_C2_witness :
    (getFileContent (envExistsSha (some "abc123"))
      (initBState "o" "r" "main" 1 0 (mkAuthedSt "tok" none)).session.owner
      (initBState "o" "r" "main" 1 0 (mkAuthedSt "tok" none)).session.repo
      "a.txt"
      (initBState "o" "r" "main" 1 0 (mkAuthedSt "tok" none)).session.branch
      (initBState "o" "r" "main" 1 0 (mkAuthedSt "tok" none)).api =
      (.ok (some (some "abc123")),
       ⟨some "tok", none, 1, [.get (contentEndpoint "o" "r" "a.txt" "main")], []⟩)) ∧
    (∃ (tail : List ApiCall) (body : PutBody),
      (stepFile (envExistsSha (some "abc123")) dTrue "m" ⟨"a.txt", "A", 0, ""⟩
        (initBState "o" "r" "main" 1 0 (mkAuthedSt "tok" none))).api.calls =
        [ApiCall.get (contentEndpoint "o" "r" "a.txt" "main")] ++
          ApiCall.put "/repos/o/r/contents/a.txt" body :: tail ∧
      (∀ c ∈ tail, c = ApiCall.put "/repos/o/r/contents/a.txt" body) ∧
      body.message = "m" ∧ body.content = "A" ∧ body.branch = "main" ∧
      body.sha = some "abc123" ∧
      ((some (some "abc123") : Option (Option String)) = none → body.sha = none) ∧
      (∀ s, (some (some "abc123") : Option (Option String)) = some (some s) →
        s ≠ "" → body.sha = some s)) := by
  refine ⟨rfl, ?_⟩
  exact claim_C2 (envExistsSha (some "abc123")) dTrue "m" ⟨"a.txt", "A", 0, ""⟩
    (initBState "o" "r" "main" 1 0 (mkAuthedSt "tok" none))
    (some (some "abc123"))
    ⟨some "tok", none, 1, [.get (contentEndpoint "o" "r" "a.txt" "main")], []⟩
    "tok" rfl rfl


/-- C3 as stated is false: with the default budget `MAX_RETRIES = 3`,
three consecutive 500s followed by a 200 do NOT exhaust the retries — the
budget counts retries after the initial attempt, so the fourth attempt is
made and its 200 succeeds. -/
theorem claim_C3_counterexample :
    (apiRequest env3x500 (.get "/e") (mkAuthedSt "tok" none)).1 = .ok none ∧
    ∀ e, (apiRequest env3x500 (.get "/e") (mkAuthedSt "tok" none)).1 ≠ .error e :=
  ⟨rfl, fun _ h => Except.noConfusion h⟩

set_option maxHeartbeats 2000000 in
/-- C3 (amended): three consecutive 500s followed by a 200 within the
retry budget of 3 make the request succeed on the fourth attempt (the
ceiling is inclusive of retries, exclusive of the initial attempt); only
when every attempt fails — e.g. all responses are 500 — does the request
fail with the generic error. -/
theorem claim_C3 (tok : String) (stored : Option String) (call : ApiCall) :
    apiRequest env3x500 call (mkAuthedSt tok stored) =
      (.ok none,
       ⟨some tok, stored, 4, [call, call, call, call],
        [CONFIG_RETRY_DELAY * 1, CONFIG_RETRY_DELAY * 2, CONFIG_RETRY_DELAY * 3]⟩) ∧
    (apiRequest envAll500 call (mkAuthedSt tok stored)).1 =
      .error ⟨"API request failed: 500 - "⟩ :=
  ⟨rfl, rfl⟩

/-- C4: a 401 during any file's processing clears the stored credential
and is never retried (exactly one fetch, no backoff); with the credential
gone, any subsequent gateway call fails `Unauthenticated` immediately
with the state untouched (no network request); and the batch loop then
records that failure for every remaining file without touching the
gateway state. -/
theorem claim_C4 :
    (∀ (env : HttpEnv) (call : ApiCall) (st : ApiSt) (tok : String)
        (rl : Option String) (body : String) (sh : Option String),
      st.authToken = some tok → env st.fetchCount = .resp 401 rl body sh →
      apiRequest env call st =
        (.error ⟨"Authentication expired. Please login again."⟩,
         ⟨none, none, st.fetchCount + 1, st.calls ++ [call], st.sleeps⟩)) ∧
    (∀ (env : HttpEnv) (call : ApiCall) (st : ApiSt),
      st.authToken = none → st.storedToken = none →
      apiRequest env call st =
        (.error ⟨"Not authenticated. Please login first."⟩, st)) ∧
    (∀ (env : HttpEnv) (d : Nat → Bool) (m : String) (fs : List FileRecord)
        (b : BState),
      b.api.authToken = none → b.api.storedToken = none →
      (processFiles env d m fs b).api = b.api ∧
      (processFiles env d m fs b).errors = b.errors ++
        fs.map (fun f => ErrorEntry.mk f.path "Not authenticated. Please login first.")) :=
  ⟨fun env call st tok rl body sh h1 h2 => apiRequest_401 env call st tok rl body sh h1 h2,
   fun env call st h1 h2 => apiRequest_noAuth env call st h1 h2,
   fun env d m fs b h1 h2 =>
    ⟨(processFiles_noAuth env d m fs b h1 h2).1,
     (processFiles_noAuth env d m fs b h1 h2).2.2⟩⟩

/-- Witness for C4: a concrete 401 and a concrete credential-less call. -/
theorem claim_C4_witness :
    ((mkAuthedSt "tok" (some "tok")).authToken = some "tok") ∧
    (env401 (mkAuthedSt "tok" (some "tok")).fetchCount = .resp 401 none "" none) ∧
    (apiRequest env401 (.get "/e") (mkAuthedSt "tok" (some "tok")) =
      (.error ⟨"Authentication expired. Please login again."⟩,
       ⟨none, none, 1, [.get "/e"], []⟩)) ∧
    (apiRequest env401 (.get "/e2") (⟨none, none, 1, [.get "/e"], []⟩ : ApiSt) =
      (.error ⟨"Not authenticated. Please login first."⟩,
       ⟨none, none, 1, [.get "/e"], []⟩)) :=
  ⟨rfl, rfl,
   claim_C4.1 env401 (.get "/e") (mkAuthedSt "tok" (some "tok")) "tok" none "" none rfl rfl,
   claim_C4.2.1 env401 (.get "/e2") ⟨none, none, 1, [.get "/e"], []⟩ rfl rfl⟩

set_option maxHeartbeats 2000000 in
/-- C5 as stated is false in its 409 part: the gateway has no distinct
`Conflict` classification — a 409 falls into the generic retry path and
surfaces as the generic `API request failed: 409 - …` error. -/
theorem claim_C5_counterexample :
    (apiRequest envAll409 (.get "/e") (mkAuthedSt "tok" none)).1 =
      .error ⟨"API request failed: 409 - conflict body"⟩ := rfl

set_option maxHeartbeats 2000000 in
/-- C5 (amended): 404 fails `NotFound` (`Resource not found`); 403 with
`X-RateLimit-Remaining: 0` fails rate-limited, otherwise permission
denied; but 409 is NOT distinct — it surfaces as the same generic
`API request failed: {status} - {body}` error every unclassified non-2xx
gets. -/
theorem claim_C5 (tok : String) (stored : Option String) (call : ApiCall) :
    (apiRequest envAll404 call (mkAuthedSt tok stored)).1 =
      .error ⟨"Resource not found"⟩ ∧
    (apiRequest envAll403Rate call (mkAuthedSt tok stored)).1 =
      .error ⟨"GitHub API rate limit exceeded. Please try again later."⟩ ∧
    (apiRequest envAll403Perm call (mkAuthedSt tok stored)).1 =
      .error ⟨"Permission denied. Check your token permissions."⟩ ∧
    (apiRequest envAll409 call (mkAuthedSt tok stored)).1 =
      .error ⟨"API request failed: 409 - conflict body"⟩ :=
  ⟨rfl, rfl, rfl, rfl⟩

/-- C6 as stated is false: a 404 IS retried — the classified throw is
caught by the function's own catch clause, which retries anything whose
message lacks "Authentication" — so the request sleeps three linear
backoffs and issues four fetches before failing `NotFound`. -/
theorem claim_C6_counterexample :
    (apiRequest envAll404 (.get "/e") (mkAuthedSt "tok" none)).2.sleeps =
      [1000, 2000, 3000] ∧
    (apiRequest envAll404 (.get "/e") (mkAuthedSt "tok" none)).2.fetchCount = 4 :=
  ⟨rfl, rfl⟩

/-- C6 (amended): the linear-backoff retry (`delay = base × attempt`)
applies to every failure whose message does not contain "Authentication"
— network failures and unclassified non-2xx, but also the classified 404
and 403 errors, which are retried up to the budget before surfacing their
classified message.  Only the 401 path escapes retry: it fails after a
single fetch with no sleep. -/
theorem claim_C6 (tok : String) (stored : Option String) (call : ApiCall) :
    apiRequest envAll404 call (mkAuthedSt tok stored) =
      (.error ⟨"Resource not found"⟩,
       ⟨some tok, stored, 4, [call, call, call, call],
        [CONFIG_RETRY_DELAY * 1, CONFIG_RETRY_DELAY * 2, CONFIG_RETRY_DELAY * 3]⟩) ∧
    apiRequest envAll403Perm call (mkAuthedSt tok stored) =
      (.error ⟨"Permission denied. Check your token permissions."⟩,
       ⟨some tok, stored, 4, [call, call, call, call],
        [CONFIG_RETRY_DELAY * 1, CONFIG_RETRY_DELAY * 2, CONFIG_RETRY_DELAY * 3]⟩) ∧
    apiRequest envAll403Rate call (mkAuthedSt tok stored) =
      (.error ⟨"GitHub API rate limit exceeded. Please try again later."⟩,
       ⟨some tok, stored, 4, [call, call, call, call],
        [CONFIG_RETRY_DELAY * 1, CONFIG_RETRY_DELAY * 2, CONFIG_RETRY_DELAY * 3]⟩) ∧
    apiRequest envAllNet call (mkAuthedSt tok stored) =
      (.error ⟨"Failed to fetch"⟩,
       ⟨some tok, stored, 4, [call, call, call, call],
        [CONFIG_RETRY_DELAY * 1, CONFIG_RETRY_DELAY * 2, CONFIG_RETRY_DELAY * 3]⟩) ∧
    apiRequest env401 call (mkAuthedSt tok stored) =
      (.error ⟨"Authentication expired. Please login again."⟩,
       ⟨none, none, 1, [call], []⟩) :=
  ⟨rfl, rfl, rfl, rfl, rfl⟩


/-- C7 as stated is false: the success-branch notification sends
`current: results.length` (line 472), not the attempted count.  In a
two-file batch whose first file fails and second succeeds, the second
(success) notification carries `current = 1` although two files have been
attempted (`len(results) + len(errors) = 2`). -/
theorem claim_C7_counterexample :
    (batchUpload envC7 dTrue 10 20 "o" "r" filesAB "" "main"
      (mkAuthedSt "tok" none)).2.notes =
      [⟨"a.txt", "error", some "Permission denied. Check your token permissions.", 1, 2⟩,
       ⟨"b.txt", "success", none, 1, 2⟩] ∧
    (batchUpload envC7 dTrue 10 20 "o" "r" filesAB "" "main"
      (mkAuthedSt "tok" none)).1.results.length +
    (batchUpload envC7 dTrue 10 20 "o" "r" filesAB "" "main"
      (mkAuthedSt "tok" none)).1.errors.length = 2 :=
  ⟨rfl, rfl⟩

/-- C7 (amended): after every file, success or failure, exactly one
progress notification `{file, status, current, total, error?}` is emitted,
with `file` the file's path and `total = len(files)`; an error
notification's `current` is the attempted count
`len(results) + len(errors)`, but a success notification's `current` is
only `len(results)` — equal to the attempted count just when no earlier
file failed; and delivery failure (no observer) does not affect the
batch, whose outcome is independent of the observer. -/
theorem claim_C7 :
    (∀ (env : HttpEnv) (d : Nat → Bool) (c0 c1 : Nat) (owner repo : String)
        (files : List FileRecord) (m branch : String) (st : ApiSt),
      (batchUpload env d c0 c1 owner repo files m branch st).2.notes.map
        (fun n => n.file) = files.map (fun f => f.path)) ∧
    (∀ (env : HttpEnv) (d : Nat → Bool) (m : String) (f : FileRecord) (b : BState),
      ∃ n : ProgressMsg,
        (stepFile env d m f b).notes = b.notes ++ [n] ∧
        n.file = f.path ∧ n.total = b.session.total ∧
        ((n.status = "success" ∧ n.error = none ∧
            n.current = (stepFile env d m f b).results.length) ∨
         (n.status = "error" ∧ n.error.isSome ∧
            n.current = (stepFile env d m f b).results.length +
              (stepFile env d m f b).errors.length))) ∧
    (∀ (env : HttpEnv) (d d' : Nat → Bool) (c0 c1 : Nat) (owner repo : String)
        (files : List FileRecord) (m branch : String) (st : ApiSt),
      batchUpload env d c0 c1 owner repo files m branch st =
        batchUpload env d' c0 c1 owner repo files m branch st) := by
  refine ⟨?_, ?_, ?_⟩
  · intro env d c0 c1 owner repo files m branch st
    obtain ⟨ns, hns, hmap⟩ := processFiles_notes env d m files
      (initBState owner repo branch files.length c0 st)
    simp only [batchUpload, persistSnap]
    rw [hns]
    simpa [initBState, persistSnap] using hmap
  · intro env d m f b
    exact stepFile_note env d m f b
  · intro env d d' c0 c1 owner repo files m branch st
    exact batchUpload_delivery_irrel env d d' c0 c1 owner repo files m branch st

/-- C8: every persisted snapshot satisfies
`current = len(results) + len(errors)` and `total = len(files)`; the last
persisted snapshot is the final session, which has `active = false`,
`startedAt` the batch-start clock and `finishedAt` the batch-end clock,
so `finishedAt ≥ startedAt` whenever the clock is monotone. -/
theorem claim_C8 (env : HttpEnv) (d : Nat → Bool) (c0 c1 : Nat)
    (owner repo : String) (files : List FileRecord) (m branch : String)
    (st : ApiSt) (h : c0 ≤ c1) :
    (∀ s ∈ (batchUpload env d c0 c1 owner repo files m branch st).2.snapshots,
      s.current = s.results.length + s.errors.length ∧ s.total = files.length) ∧
    (batchUpload env d c0 c1 owner repo files m branch st).2.snapshots.getLast? =
      some (batchUpload env d c0 c1 owner repo files m branch st).2.session ∧
    (batchUpload env d c0 c1 owner repo files m branch st).2.session.active = false ∧
    (batchUpload env d c0 c1 owner repo files m branch st).2.session.startedAt = some c0 ∧
    (batchUpload env d c0 c1 owner repo files m branch st).2.session.finishedAt = some c1 ∧
    (∀ t0 t1,
      (batchUpload env d c0 c1 owner repo files m branch st).2.session.startedAt = some t0 →
      (batchUpload env d c0 c1 owner repo files m branch st).2.session.finishedAt = some t1 →
      t0 ≤ t1) := by
  have hok0 : SessOk (initBState owner repo branch files.length c0 st) := by
    refine ⟨rfl, rfl, rfl⟩
  have hsnap0 : ∀ s ∈ (initBState owner repo branch files.length c0 st).snapshots,
      SnapOk (initBState owner repo branch files.length c0 st).session.total s := by
    intro s hs
    simp only [initBState, persistSnap, List.nil_append, List.mem_singleton] at hs
    subst hs
    exact ⟨rfl, rfl⟩
  obtain ⟨hok1, hsnap1⟩ := processFiles_invariants env d m files
    (initBState owner repo branch files.length c0 st) hok0 hsnap0
  have hfix := processFiles_session_fixed env d m files
    (initBState owner repo branch files.length c0 st)
  have htot1 : (processFiles env d m files
      (initBState owner repo branch files.length c0 st)).session.total = files.length :=
    hfix.2.2.2.1
  have hstart1 : (processFiles env d m files
      (initBState owner repo branch files.length c0 st)).session.startedAt = some c0 :=
    hfix.2.2.2.2.1
  refine ⟨?_, ?_, ?_, ?_, ?_, ?_⟩
  · intro s hs
    simp only [batchUpload, persistSnap, List.mem_append, List.mem_singleton] at hs
    rcases hs with hs | hs
    · obtain ⟨k1, k2⟩ := hsnap1 s hs
      exact ⟨k1, k2.trans rfl⟩
    · subst hs
      obtain ⟨j1, j2, j3⟩ := hok1
      exact ⟨by simp [j3, j1, j2], by simp [htot1]⟩
  · simp only [batchUpload, persistSnap]
    exact List.getLast?_concat _
  · simp [batchUpload, persistSnap]
  · simp only [batchUpload, persistSnap]
    exact hstart1
  · simp [batchUpload, persistSnap]
  · intro t0 t1 e0 e1
    simp only [batchUpload, persistSnap] at e0 e1
    rw [hstart1] at e0
    simp at e0 e1
    rw [← e0, ← e1]
    exact h

/-- Witness for C8 at a concrete batch. -/
theorem claim_C8_witness :
    (0 : Nat) ≤ 1 ∧
    (∀ s ∈ (batchUpload env200 dTrue 0 1 "o" "r" filesAB "" "main"
        (mkAuthedSt "tok" none)).2.snapshots,
      s.current = s.results.length + s.errors.length ∧ s.total = filesAB.length) ∧
    (batchUpload env200 dTrue 0 1 "o" "r" filesAB "" "main"
      (mkAuthedSt "tok" none)).2.session.active = false :=
  ⟨by decide,
   (claim_C8 env200 dTrue 0 1 "o" "r" filesAB "" "main"
     (mkAuthedSt "tok" none) (by decide)).1,
   (claim_C8 env200 dTrue 0 1 "o" "r" filesAB "" "main"
     (mkAuthedSt "tok" none) (by decide)).2.2.1⟩


/-- C9: the existence lookup maps a not-found outcome to `absent`
(`null`), so no error surfaces for such a file — in particular the
gateway's own 404 message "Resource not found" is recognized; any other
lookup failure propagates unchanged, and then the loop body records that
file in `errors` with the error's message, skips its upload (the gateway
state stays exactly as the lookup left it), and continues with the
remaining files. -/
theorem claim_C9 :
    (isNotFoundMsg "Resource not found" = true) ∧
    (∀ (env : HttpEnv) (owner repo path branch : String) (st : ApiSt)
        (e : JsError) (st' : ApiSt),
      apiRequest env (.get (contentEndpoint owner repo path branch)) st =
        (.error e, st') →
      isNotFoundMsg e.message = true →
      getFileContent env owner repo path branch st = (.ok none, st')) ∧
    (∀ (env : HttpEnv) (owner repo path branch : String) (st : ApiSt)
        (e : JsError) (st' : ApiSt),
      apiRequest env (.get (contentEndpoint owner repo path branch)) st =
        (.error e, st') →
      isNotFoundMsg e.message = false →
      getFileContent env owner repo path branch st = (.error e, st')) ∧
    (∀ (env : HttpEnv) (d : Nat → Bool) (m : String) (f : FileRecord)
        (b : BState) (e : JsError) (st' : ApiSt),
      getFileContent env b.session.owner b.session.repo f.path
          b.session.branch b.api = (.error e, st') →
      (stepFile env d m f b).results = b.results ∧
      (stepFile env d m f b).errors = b.errors ++ [ErrorEntry.mk f.path e.message] ∧
      (stepFile env d m f b).api = st') ∧
    (∀ (env : HttpEnv) (d : Nat → Bool) (m : String) (f : FileRecord)
        (fs : List FileRecord) (b : BState),
      processFiles env d m (f :: fs) b =
        processFiles env d m fs (stepFile env d m f b)) := by
  refine ⟨by decide, ?_, ?_, ?_, ?_⟩
  · intro env owner repo path branch st e st' hreq hmsg
    simp [getFileContent, hreq, hmsg]
  · intro env owner repo path branch st e st' hreq hmsg
    simp [getFileContent, hreq, hmsg]
  · intro env d m f b e st' hg
    rw [stepFile_err env d m f b e st' hg]
    exact ⟨rfl, rfl, rfl⟩
  · intro env d m f fs b
    exact processFiles_cons env d m f fs b

/-- Witness for C9: the gateway's 404 classification is mapped to
`absent` by the resolver on a concrete state. -/
theorem claim_C9_witness :
    (apiRequest envAll404 (.get (contentEndpoint "o" "r" "p" "main"))
      (mkAuthedSt "tok" none) =
      (.error ⟨"Resource not found"⟩,
       ⟨some "tok", none, 4,
        [.get (contentEndpoint "o" "r" "p" "main"),
         .get (contentEndpoint "o" "r" "p" "main"),
         .get (contentEndpoint "o" "r" "p" "main"),
         .get (contentEndpoint "o" "r" "p" "main")],
        [1000, 2000, 3000]⟩)) ∧
    (isNotFoundMsg "Resource not found" = true) ∧
    (getFileContent envAll404 "o" "r" "p" "main" (mkAuthedSt "tok" none) =
      (.ok none,
       ⟨some "tok", none, 4,
        [.get (contentEndpoint "o" "r" "p" "main"),
         .get (contentEndpoint "o" "r" "p" "main"),
         .get (contentEndpoint "o" "r" "p" "main"),
         .get (contentEndpoint "o" "r" "p" "main")],
        [1000, 2000, 3000]⟩)) :=
  ⟨rfl, rfl,
   claim_C9.2.1 envAll404 "o" "r" "p" "main" (mkAuthedSt "tok" none)
     ⟨"Resource not found"⟩ _ rfl rfl⟩

/-- C10: a batch over the empty file list returns
`{results: [], errors: []}`, leaves the gateway state untouched (no
network request), emits no progress notification, and still persists the
initial and the finalized snapshot, the latter with `total = 0`,
`current = 0`, `active = false`, and both timestamps set. -/
theorem claim_C10 (env : HttpEnv) (d : Nat → Bool) (c0 c1 : Nat)
    (owner repo m branch : String) (st : ApiSt) :
    batchUpload env d c0 c1 owner repo [] m branch st =
      (⟨[], []⟩,
       { api := st
         results := []
         errors := []
         session := ⟨false, owner, repo, branch, 0, 0, "", [], [], some c0, some c1⟩
         snapshots := [⟨true, owner, repo, branch, 0, 0, "", [], [], some c0, none⟩,
                       ⟨false, owner, repo, branch, 0, 0, "", [], [], some c0, some c1⟩]
         notes := [] }) := rfl

end YesNo
